import Mathlib

/-!
A verification development for the incremental job-scraping engine of the
Job-Visualizer-Notifier repository.

The Python modules `scripts/shared/incremental.py`, `scripts/shared/database.py`,
`scripts/shared/batch_writer.py` and `scripts/shared/base_scraper.py` are shallowly
embedded below.  The relational store is modelled as an in-memory list of rows
(the `job_listings` table) together with an append-only list of `scrape_runs`
rows; SQL `UPDATE ... WHERE id IN (...)` statements become maps over the row
list; `ON CONFLICT` upserts become conditional row rewrites.  Wall-clock
timestamps (`get_iso_timestamp()`) are passed in as explicit string parameters.
Exceptions raised by external collaborators (browser, network, database driver)
are modelled by `Except` results and by boolean failure oracles; `try/except`
blocks become matches on those results.
-/

set_option autoImplicit false

namespace JobVisualizer

/-- Job lifecycle status, `status TEXT` column restricted to the two values
used by the code (`'OPEN'` / `'CLOSED'`). -/
inductive Status where
  | OPEN
  | CLOSED
deriving DecidableEq, Repr

/-- One row of the `job_listings` table / one `JobListing` pydantic model
(`scripts/shared/models.py`).  The opaque JSONB payloads `details` and
`ai_metadata` are modelled as association lists that the core never interprets. -/
structure Job where
  id : String
  title : String
  company : String
  location : Option String
  url : String
  source_id : String
  details : List (String × String)
  posted_on : Option String
  created_at : String
  closed_on : Option String
  status : Status
  has_matched : Bool
  ai_metadata : List (String × String)
  first_seen_at : String
  last_seen_at : String
  consecutive_misses : Nat
  details_scraped : Bool
deriving DecidableEq, Repr

/-- The `job_listings_{env}` table: a list of rows.  (The `env` suffix only
selects a table name in the Python code, so it does not appear in the model.) -/
abbrev Table := List Job

/-- One row of the `scrape_runs_{env}` table / the `ScrapeRun` pydantic model. -/
structure ScrapeRun where
  run_id : String
  company : String
  started_at : String
  completed_at : Option String
  mode : String
  jobs_seen : Nat
  new_jobs : Nat
  closed_jobs : Nat
  details_fetched : Nat
  error_count : Nat
deriving DecidableEq, Repr

/-- The persistent store reachable through one connection: the two tables. -/
structure DB where
  jobs : Table
  runs : List ScrapeRun
deriving DecidableEq, Repr

/-! ### database.py -/

/-- `database.get_active_job_ids`: ids of rows with the given company and
`status = 'OPEN'`, returned as a set. -/
def get_active_job_ids (table : Table) (company : String) : Finset String :=
  ((table.filter fun j => decide (j.company = company ∧ j.status = Status.OPEN)).map
    Job.id).toFinset

/-- `database.insert_job`: plain `INSERT` of one row. -/
def insert_job (table : Table) (job : Job) : Table :=
  table ++ [job]

/-- The `ON CONFLICT (id) DO UPDATE SET ...` row rewrite shared by
`database.upsert_job` and `database.upsert_jobs_batch`: the incoming row's
descriptive fields overwrite the stored ones, the job is reactivated
(`status = 'OPEN'`, `closed_on = NULL`, `consecutive_misses = 0`,
fresh `last_seen_at`), while `id`, `company`, `source_id`, `created_at`,
`has_matched`, `ai_metadata` and `first_seen_at` keep their stored values. -/
def applyUpsertRow (stored incoming : Job) : Job :=
  { stored with
    title := incoming.title
    location := incoming.location
    url := incoming.url
    details := incoming.details
    posted_on := incoming.posted_on
    status := Status.OPEN
    closed_on := none
    last_seen_at := incoming.last_seen_at
    consecutive_misses := 0
    details_scraped := incoming.details_scraped }

/-- `database.upsert_job`: `INSERT ... ON CONFLICT (id) DO UPDATE`.  Returns the
new table and the `was_inserted` flag (`xmax = 0`). -/
def upsert_job (table : Table) (job : Job) : Table × Bool :=
  if table.any fun r => r.id == job.id then
    (table.map fun r => if r.id == job.id then applyUpsertRow r job else r, false)
  else
    (table ++ [job], true)

/-- `database.upsert_jobs_batch`: bulk upsert via `execute_values`; row-wise it
behaves like sequential `upsert_job` calls and reports `len(jobs)`. -/
def upsert_jobs_batch (table : Table) (jobs : List Job) : Table × Nat :=
  (jobs.foldl (fun t j => (upsert_job t j).1) table, jobs.length)

/-- `database.insert_jobs_batch`: bulk `INSERT ... ON CONFLICT (id) DO NOTHING`;
reports the number of rows actually inserted (`cursor.rowcount`). -/
def insert_jobs_batch (table : Table) (jobs : List Job) : Table × Nat :=
  jobs.foldl
    (fun acc j =>
      if acc.1.any fun r => r.id == j.id then acc else (acc.1 ++ [j], acc.2 + 1))
    (table, 0)

/-- The `SET last_seen_at = ts, consecutive_misses = 0` clause of
`database.update_last_seen`. -/
def touchRow (timestamp : String) (j : Job) : Job :=
  { j with last_seen_at := timestamp, consecutive_misses := 0 }

/-- The `SET consecutive_misses = consecutive_misses + 1` clause of
`database.increment_consecutive_misses`. -/
def bumpRow (j : Job) : Job :=
  { j with consecutive_misses := j.consecutive_misses + 1 }

/-- The `SET status = 'CLOSED', closed_on = ts` clause of
`database.mark_jobs_closed`. -/
def closeRow (timestamp : String) (j : Job) : Job :=
  { j with status := Status.CLOSED, closed_on := some timestamp }

/-- `database.update_last_seen`: `UPDATE ... SET last_seen_at, consecutive_misses = 0
WHERE id IN (...)`.  The Python call sites pass `list(id_set)`; membership in that
list is membership in the set. -/
def update_last_seen (table : Table) (ids : Finset String) (timestamp : String) : Table :=
  table.map fun j => if j.id ∈ ids then touchRow timestamp j else j

/-- `database.increment_consecutive_misses`: `UPDATE ... SET consecutive_misses =
consecutive_misses + 1 WHERE id IN (...)`. -/
def increment_consecutive_misses (table : Table) (ids : Finset String) : Table :=
  table.map fun j => if j.id ∈ ids then bumpRow j else j

/-- `database.mark_jobs_closed`: `UPDATE ... SET status = 'CLOSED', closed_on = ts
WHERE id IN (...)`. -/
def mark_jobs_closed (table : Table) (ids : List String) (timestamp : String) : Table :=
  table.map fun j => if j.id ∈ ids then closeRow timestamp j else j

/-- Modelled from the spec: `database.get_jobs_exceeding_miss_threshold` is called
by `incremental.update_existing_jobs` but is not defined anywhere under the
repository's source tree.  Per the spec's closure rule ("triggered when
`consecutive_misses + 1 >= MISSED_RUN_THRESHOLD`") and the caller's comment
("consecutive_misses was already incremented above, so we check >= threshold"),
it returns the ids, among the given missing ids, of rows whose stored
`consecutive_misses` is at or above the threshold. -/
def get_jobs_exceeding_miss_threshold (table : Table) (ids : Finset String)
    (threshold : Nat) : List String :=
  (table.filter fun j => decide (j.id ∈ ids ∧ threshold ≤ j.consecutive_misses)).map Job.id

/-- `database.record_scrape_run`: append-only `INSERT` into `scrape_runs`. -/
def record_scrape_run (db : DB) (run : ScrapeRun) : DB :=
  { db with runs := db.runs ++ [run] }

/-! ### incremental.py : diff engine -/

/-- `incremental.MISSED_RUN_THRESHOLD` -/
def MISSED_RUN_THRESHOLD : Nat := 2

/-- `incremental.calculate_job_diff`: pure set difference between the current
scrape and the database state, returning `(new_jobs, still_active, missing_jobs)`. -/
def calculate_job_diff (current_ids active_known_ids : Finset String) :
    Finset String × Finset String × Finset String :=
  (current_ids \ active_known_ids,
   current_ids ∩ active_known_ids,
   active_known_ids \ current_ids)

/-! ### incremental.py : lifecycle updater -/

/-- `incremental.update_existing_jobs`: reset misses for still-active ids,
increment misses for missing ids, close the missing ids that reached the
threshold.  Returns the updated table and the number of jobs marked closed. -/
def update_existing_jobs (table : Table) (still_active_ids missing_ids : Finset String)
    (timestamp : String) (threshold : Nat) : Table × Nat :=
  let t1 := update_last_seen table still_active_ids timestamp
  if missing_ids = ∅ then
    (t1, 0)
  else
    let t2 := increment_consecutive_misses t1 missing_ids
    let jobs_to_close := get_jobs_exceeding_miss_threshold t2 missing_ids threshold
    if jobs_to_close.isEmpty then
      (t2, 0)
    else
      (mark_jobs_closed t2 jobs_to_close timestamp, jobs_to_close.length)

/-! ### batch_writer.py -/

/-- `batch_writer.BatchWriterStats` -/
structure BatchWriterStats where
  total_processed : Nat := 0
  total_written : Nat := 0
  batches_written : Nat := 0
  errors : Nat := 0
deriving DecidableEq, Repr

/-- A job card from the quick list scrape (phase 1): the fields the shared
incremental code reads (`job['id']`, `job_card.get("job_url")`). -/
structure Card where
  id : String
  title : String
  job_url : Option String
deriving DecidableEq, Repr

/-- A raw job record as streamed into the writer: the card dict, possibly
merged (`{**job_card, **details}`) with extra detail fields.  A card merged
with an empty detail dict is the card itself. -/
structure RawJob where
  card : Card
  extra : List (String × String)
deriving DecidableEq, Repr

/-- The scraper collaborator as seen by the shared code: outcomes of its
external calls.  `Except.error` models a raised exception. -/
structure Scraper where
  scrape_all_queries : Except String (List Card)
  new_page : Except String Unit
  extract_job_details : String → Except String (List (String × String))
  transform_to_job_model : RawJob → Except String Job

/-- Failure oracle for the database driver: which bulk writes and which
individual row writes raise. -/
structure WriteOracle where
  bulkFails : List Job → Bool
  rowFails : Job → Bool

/-- `batch_writer.BatchWriter` state. -/
structure BatchWriter where
  batch_size : Nat
  detail_scrape : Bool
  use_upsert : Bool
  buffer : List Job
  stats : BatchWriterStats
deriving DecidableEq, Repr

/-- `BatchWriter.__init__`: raises `ValueError` for `batch_size <= 0` before
any writer state is created. -/
def BatchWriter.init (batch_size : Int) (detail_scrape use_upsert : Bool) :
    Except String BatchWriter :=
  if batch_size ≤ 0 then
    Except.error "batch_size must be positive"
  else
    Except.ok
      { batch_size := batch_size.toNat, detail_scrape := detail_scrape,
        use_upsert := use_upsert, buffer := [], stats := {} }

/-- The per-row write function selected by `use_upsert` in
`BatchWriter._fallback_individual_writes`. -/
def applyRowWrite (use_upsert : Bool) (table : Table) (job : Job) : Table :=
  if use_upsert then (upsert_job table job).1 else insert_job table job

/-- The bulk write function selected by `use_upsert` in `BatchWriter.flush`. -/
def applyBatchWrite (use_upsert : Bool) (table : Table) (jobs : List Job) : Table × Nat :=
  if use_upsert then upsert_jobs_batch table jobs else insert_jobs_batch table jobs

/-- One iteration of `BatchWriter._fallback_individual_writes`: accumulator is
`(table, written count, row errors)`. -/
def fallbackStep (o : WriteOracle) (use_upsert : Bool) (acc : Table × Nat × Nat)
    (job : Job) : Table × Nat × Nat :=
  if o.rowFails job then (acc.1, acc.2.1, acc.2.2 + 1)
  else (applyRowWrite use_upsert acc.1 job, acc.2.1 + 1, acc.2.2)

/-- `BatchWriter._fallback_individual_writes`: write buffered rows one by one;
a raising row is counted and skipped.  Returns the updated table, the written
count, and the number of row errors. -/
def BatchWriter.fallback_individual_writes (w : BatchWriter) (o : WriteOracle)
    (table : Table) : Table × Nat × Nat :=
  w.buffer.foldl (fallbackStep o w.use_upsert) (table, 0, 0)

/-- `BatchWriter.flush`: bulk-write the whole buffer; on bulk failure count one
error and fall back to individual writes.  The `finally` block adds the flushed
count to `total_written` and clears the buffer regardless of failure.  Returns
the updated writer, the updated table, and the count written in this flush. -/
def BatchWriter.flush (w : BatchWriter) (o : WriteOracle) (table : Table) :
    BatchWriter × Table × Nat :=
  if w.buffer.isEmpty then (w, table, 0)
  else if o.bulkFails w.buffer then
    let fb := w.fallback_individual_writes o table
    let stats1 :=
      { w.stats with
        errors := w.stats.errors + 1 + fb.2.2
        total_written := w.stats.total_written + fb.2.1 }
    ({ w with buffer := [], stats := stats1 }, fb.1, fb.2.1)
  else
    let res := applyBatchWrite w.use_upsert table w.buffer
    let stats2 :=
      { w.stats with
        batches_written := w.stats.batches_written + 1
        total_written := w.stats.total_written + res.2 }
    ({ w with buffer := [], stats := stats2 }, res.1, res.2)

/-- `BatchWriter.add_job`: transform the raw record, stamp
`first_seen_at`/`last_seen_at`/`details_scraped`, append to the buffer, and
auto-flush once the buffer reaches `batch_size`.  A raising transform is
caught, counted, and the item dropped. -/
def BatchWriter.add_job (w : BatchWriter) (s : Scraper) (o : WriteOracle)
    (table : Table) (raw : RawJob) (timestamp : String) : BatchWriter × Table :=
  match s.transform_to_job_model raw with
  | Except.error _ =>
    ({ w with stats := { w.stats with errors := w.stats.errors + 1 } }, table)
  | Except.ok j0 =>
    let job :=
      { j0 with
        first_seen_at := timestamp
        last_seen_at := timestamp
        details_scraped := w.detail_scrape }
    let w1 :=
      { w with
        buffer := w.buffer ++ [job]
        stats := { w.stats with total_processed := w.stats.total_processed + 1 } }
    if w.batch_size ≤ w1.buffer.length then
      let f := w1.flush o table
      (f.1, f.2.1)
    else
      (w1, table)

deriving instance DecidableEq for Except

/-! ### base_scraper.py -/

/-- The record yielded for one card in the streaming loop: the merged record
(`{**job_card, **details}`) on success, the bare card when the card has no
`job_url` or when the detail fetch raises. -/
def enrichCard (s : Scraper) (c : Card) : RawJob :=
  match c.job_url with
  | none => { card := c, extra := [] }
  | some url =>
    match s.extract_job_details url with
    | Except.ok d => { card := c, extra := d }
    | Except.error _ => { card := c, extra := [] }

/-- `BaseScraper.scrape_job_details_streaming`: open one page, then yield one
record per card.  A failure opening the page propagates out of the generator. -/
def scrape_job_details_streaming (s : Scraper) (cards : List Card) :
    Except String (List RawJob) :=
  match s.new_page with
  | Except.error e => Except.error e
  | Except.ok _ => Except.ok (cards.map (enrichCard s))

/-! ### incremental.py : enrichment and orchestrator -/

/-- One iteration of the streaming loop in `incremental.process_new_jobs`:
`writer.add_job(enriched_job, timestamp); details_fetched += 1`. -/
def procStep (s : Scraper) (o : WriteOracle) (timestamp : String)
    (acc : BatchWriter × Table × Nat) (raw : RawJob) : BatchWriter × Table × Nat :=
  let r := acc.1.add_job s o acc.2.1 raw timestamp
  (r.1, r.2, acc.2.2 + 1)

/-- One iteration of the no-detail loop in `incremental.process_new_jobs`:
the bare card is buffered directly. -/
def procStepCards (s : Scraper) (o : WriteOracle) (timestamp : String)
    (acc : BatchWriter × Table) (c : Card) : BatchWriter × Table :=
  acc.1.add_job s o acc.2 { card := c, extra := [] } timestamp

/-- `incremental.process_new_jobs`: stream new-job records through a
`BatchWriter` constructed with `use_upsert = true`, then flush the remainder.
Returns the `details_fetched` count, the updated table, and (as a ghost
observable) the final writer state — `none` on the empty early return. -/
def process_new_jobs (s : Scraper) (o : WriteOracle) (table : Table)
    (new_job_cards : List Card) (timestamp : String) (detail_scrape : Bool)
    (batch_size : Int) : Except String (Nat × Table × Option BatchWriter) :=
  if new_job_cards.isEmpty then Except.ok (0, table, none)
  else
    match BatchWriter.init batch_size detail_scrape true with
    | Except.error e => Except.error e
    | Except.ok w0 =>
      if detail_scrape then
        match scrape_job_details_streaming s new_job_cards with
        | Except.error e => Except.error e
        | Except.ok stream =>
          let st := stream.foldl (procStep s o timestamp) (w0, table, 0)
          let fl := st.1.flush o st.2.1
          Except.ok (st.2.2, fl.2.1, some fl.1)
      else
        let st := new_job_cards.foldl (procStepCards s o timestamp) (w0, table)
        let fl := st.1.flush o st.2
        Except.ok (0, fl.2.1, some fl.1)

/-- `incremental.ScrapeResult` counters (`run_id` is supplied by the caller in
place of `uuid.uuid4()`). -/
structure ScrapeResult where
  jobs_seen : Nat := 0
  new_jobs : Nat := 0
  closed_jobs : Nat := 0
  details_fetched : Nat := 0
  error_count : Nat := 0
  run_id : String := ""
deriving DecidableEq, Repr

/-- The `ScrapeRun` audit row built at the end of `run_incremental_scrape`. -/
def mkRunRecord (company started_at completed_at : String) (res : ScrapeResult) :
    ScrapeRun :=
  { run_id := res.run_id, company := company, started_at := started_at,
    completed_at := some completed_at, mode := "incremental",
    jobs_seen := res.jobs_seen, new_jobs := res.new_jobs, closed_jobs := res.closed_jobs,
    details_fetched := res.details_fetched, error_count := res.error_count }

/-- `new_job_cards = [job for job in job_cards if job['id'] in new_ids]` -/
def new_job_cards_of (cards : List Card) (new_ids : Finset String) : List Card :=
  cards.filter fun c => decide (c.id ∈ new_ids)

/-- Phase 2: the diff of the snapshot's ids against the store's open ids. -/
def snapshot_diff (db : DB) (company : String) (cards : List Card) :
    Finset String × Finset String × Finset String :=
  calculate_job_diff ((cards.map Card.id).toFinset) (get_active_job_ids db.jobs company)

/-- The card list handed to phase 3: snapshot cards whose id is in `new`. -/
def phase3_cards (db : DB) (company : String) (cards : List Card) : List Card :=
  new_job_cards_of cards (snapshot_diff db company cards).1

/-- Output of one orchestrator invocation: the result (or re-raised error),
the updated store, and two ghost observables of phase 3 — the card list handed
to enrichment and the final writer state. -/
structure RunOutput where
  result : Except String ScrapeResult
  db : DB
  processed_cards : List Card
  writer : Option BatchWriter

/-- `incremental.run_incremental_scrape`: the 5-phase flow.  Any phase failure
is caught, counted in `error_count`, and the run record is still written before
the error is re-raised (modelled by returning `Except.error` alongside the
updated store). -/
def run_incremental_scrape (s : Scraper) (o : WriteOracle) (db : DB)
    (company : String) (detail_scrape : Bool) (rid started_at completed_at : String) :
    RunOutput :=
  match s.scrape_all_queries with
  | Except.error e =>
    let res : ScrapeResult := { error_count := 1, run_id := rid }
    { result := Except.error e,
      db := record_scrape_run db (mkRunRecord company started_at completed_at res),
      processed_cards := [], writer := none }
  | Except.ok cards =>
    let d := snapshot_diff db company cards
    let new_cards := phase3_cards db company cards
    match process_new_jobs s o db.jobs new_cards started_at detail_scrape 50 with
    | Except.error e =>
      let res : ScrapeResult := { jobs_seen := cards.length, error_count := 1, run_id := rid }
      { result := Except.error e,
        db := record_scrape_run db (mkRunRecord company started_at completed_at res),
        processed_cards := new_cards, writer := none }
    | Except.ok pr =>
      let u := update_existing_jobs pr.2.1 d.2.1 d.2.2 started_at MISSED_RUN_THRESHOLD
      let res : ScrapeResult :=
        { jobs_seen := cards.length, new_jobs := d.1.card,
          closed_jobs := u.2, details_fetched := pr.1, error_count := 0, run_id := rid }
      { result := Except.ok res,
        db := record_scrape_run { jobs := u.1, runs := db.runs }
          (mkRunRecord company started_at completed_at res),
        processed_cards := new_cards, writer := pr.2.2 }

/-! ### Concrete fixtures used by witnesses and counterexamples -/

/-- A stored job row that has been closed: used as a concrete witness input. -/
def exClosedJob : Job :=
  { id := "J1", title := "Old Title", company := "apple", location := some "Cupertino",
    url := "https://jobs/J1", source_id := "apple_scraper", details := [("k", "v")],
    posted_on := some "2024-01-01", created_at := "2024-01-02", closed_on := some "2024-02-01",
    status := Status.CLOSED, has_matched := true, ai_metadata := [],
    first_seen_at := "2024-01-02", last_seen_at := "2024-01-20", consecutive_misses := 2,
    details_scraped := true }

/-- The same job as rescraped later: same id, fresh timestamps. -/
def exNewJob : Job :=
  { id := "J1", title := "New Title", company := "apple", location := some "Austin",
    url := "https://jobs/J1b", source_id := "apple_scraper", details := [],
    posted_on := none, created_at := "2024-03-01", closed_on := none,
    status := Status.OPEN, has_matched := false, ai_metadata := [],
    first_seen_at := "2024-03-01", last_seen_at := "2024-03-01", consecutive_misses := 0,
    details_scraped := true }

/-- A one-row table holding the closed job. -/
def exTable : Table := [exClosedJob]

/-- An open job row with one recorded miss (the spec's §8 example scenario). -/
def exOpenJobOneMiss : Job :=
  { id := "J2", title := "Engineer", company := "google", location := none,
    url := "https://jobs/J2", source_id := "google_scraper", details := [],
    posted_on := none, created_at := "2024-01-05", closed_on := none,
    status := Status.OPEN, has_matched := false, ai_metadata := [],
    first_seen_at := "2024-01-05", last_seen_at := "2024-01-10", consecutive_misses := 1,
    details_scraped := false }

/-- An open job row with no recorded miss yet. -/
def exOpenJobNoMiss : Job :=
  { id := "J3", title := "Designer", company := "google", location := none,
    url := "https://jobs/J3", source_id := "google_scraper", details := [],
    posted_on := none, created_at := "2024-01-06", closed_on := none,
    status := Status.OPEN, has_matched := false, ai_metadata := [],
    first_seen_at := "2024-01-06", last_seen_at := "2024-01-10", consecutive_misses := 0,
    details_scraped := false }

/-- A job card with a detail URL. -/
def exCard : Card := { id := "C1", title := "Engineer", job_url := some "https://jobs/C1" }

/-- A job card without a detail URL. -/
def exCardNoUrl : Card := { id := "C2", title := "PM", job_url := none }

/-- A simple transform capability: builds a job row from the card fields and
the merged detail payload. -/
def exTransform (raw : RawJob) : Except String Job :=
  Except.ok
    { exNewJob with id := raw.card.id, title := raw.card.title, details := raw.extra }

/-- A scraper whose detail fetches all succeed with one detail field. -/
def exScraper : Scraper :=
  { scrape_all_queries := Except.ok [exCard, exCardNoUrl],
    new_page := Except.ok (),
    extract_job_details := fun _ => Except.ok [("description", "text")],
    transform_to_job_model := exTransform }

/-- A scraper whose detail fetches all raise. -/
def exScraperDetailFail : Scraper :=
  { exScraper with extract_job_details := fun _ => Except.error "network down" }

/-- A scraper whose detail fetches succeed but return no extra fields. -/
def exScraperEmptyDetails : Scraper :=
  { exScraper with extract_job_details := fun _ => Except.ok [] }

/-- A scraper whose transform capability always raises. -/
def exScraperBadTransform : Scraper :=
  { exScraper with transform_to_job_model := fun _ => Except.error "Transform failed" }

/-- A database driver in which no write ever raises. -/
def exOkOracle : WriteOracle := { bulkFails := fun _ => false, rowFails := fun _ => false }

/-- A database driver in which every bulk write raises and the individual
write of the row with id `"J3"` raises. -/
def exBulkFailOracle : WriteOracle :=
  { bulkFails := fun _ => true, rowFails := fun j => j.id == "J3" }

/-- A freshly constructed writer with `batch_size = 10`. -/
def exWriter : BatchWriter :=
  { batch_size := 10, detail_scrape := true, use_upsert := true, buffer := [], stats := {} }

/-- The same writer with two buffered rows. -/
def exWriterBuf : BatchWriter :=
  { exWriter with buffer := [exOpenJobOneMiss, exOpenJobNoMiss] }

/-- A scraper whose snapshot phase raises. -/
def exScraperSnapshotFail : Scraper :=
  { exScraper with scrape_all_queries := Except.error "page structure changed" }

/-- The row produced by `exTransform` for the bare card `"C1"`, stamped by the
writer with the run timestamp and the detail flag. -/
def exStampedC1 : Job :=
  { exNewJob with
    id := "C1"
    title := "Engineer"
    details := []
    first_seen_at := "2024-05-01"
    last_seen_at := "2024-05-01"
    details_scraped := true }

/-- The analogous stamped row for the bare card `"C2"`. -/
def exStampedC2 : Job :=
  { exNewJob with
    id := "C2"
    title := "PM"
    details := []
    first_seen_at := "2024-05-01"
    last_seen_at := "2024-05-01"
    details_scraped := true }

/-- The writer state after streaming and flushing the two fixture cards. -/
def exFinalWriter50 : BatchWriter :=
  { batch_size := 50, detail_scrape := true, use_upsert := true, buffer := [],
    stats := { total_processed := 2, total_written := 2, batches_written := 1, errors := 0 } }

/-- An OPEN row for company `"apple"` with id `"C1"`, so that card `"C1"` is
still-active and card `"C2"` is new. -/
def exOpenC1Apple : Job := { exNewJob with id := "C1", company := "apple" }

/-- A store holding that one row and no run records. -/
def exDB : DB := { jobs := [exOpenC1Apple], runs := [] }

/-- The result of the fixture run against `exDB`. -/
def exRes8 : ScrapeResult :=
  { jobs_seen := 2, new_jobs := 1, closed_jobs := 0, details_fetched := 1,
    error_count := 0, run_id := "run1" }

/-- The row produced by `exTransform` for the bare card `"C1"` before stamping. -/
def exBareC1 : Job := { exNewJob with id := "C1", title := "Engineer", details := [] }

/-- The writer state after streaming and flushing one fixture card. -/
def exFinalWriter50One : BatchWriter :=
  { batch_size := 50, detail_scrape := true, use_upsert := true, buffer := [],
    stats := { total_processed := 1, total_written := 1, batches_written := 1, errors := 0 } }

/-- The buffered record's id is still present after any state of play: either a
buffered row or a stored row carries it.  This is the invariant threaded
through `add_job`/`flush` to show streamed records reach the store. -/
def trackedId (w : BatchWriter) (table : Table) (idv : String) : Prop :=
  (∃ j, j ∈ w.buffer ∧ j.id = idv) ∨ (∃ r, r ∈ table ∧ r.id = idv)

end JobVisualizer

namespace JobVisualizer

/-- C1: `calculate_job_diff` returns three pairwise-disjoint sets whose unions
recover the two inputs exactly; empty inputs give empty outputs, and disjoint
inputs degenerate to `new = current`, `missing = known`. -/
theorem calculate_job_diff_partition (current known : Finset String) :
    (Disjoint (calculate_job_diff current known).1 (calculate_job_diff current known).2.1 ∧
      Disjoint (calculate_job_diff current known).2.1 (calculate_job_diff current known).2.2 ∧
      Disjoint (calculate_job_diff current known).1 (calculate_job_diff current known).2.2) ∧
    (calculate_job_diff current known).1 ∪ (calculate_job_diff current known).2.1 = current ∧
    (calculate_job_diff current known).2.1 ∪ (calculate_job_diff current known).2.2 = known ∧
    (current = ∅ → known = ∅ →
      calculate_job_diff current known = (∅, ∅, ∅)) ∧
    (Disjoint current known →
      (calculate_job_diff current known).1 = current ∧
        (calculate_job_diff current known).2.2 = known) := by
  unfold calculate_job_diff
  dsimp only
  refine ⟨⟨?_, ?_, ?_⟩, ?_, ?_, ?_, ?_⟩
  · exact Finset.disjoint_sdiff_inter current known
  · rw [Finset.inter_comm]
    exact (Finset.disjoint_sdiff_inter known current).symm
  · exact disjoint_sdiff_sdiff
  · exact Finset.sdiff_union_inter current known
  · rw [Finset.inter_comm, Finset.union_comm]
    exact Finset.sdiff_union_inter known current
  · intro hc hk
    subst hc; subst hk
    simp
  · intro hdisj
    refine ⟨?_, ?_⟩
    · exact sdiff_eq_self_iff_disjoint'.mpr hdisj
    · exact sdiff_eq_self_iff_disjoint'.mpr hdisj.symm

/-- C4: writing a record whose id already exists through the upsert path keeps
the stored row's `created_at` and `first_seen_at`, sets `status = OPEN`,
clears `closed_on`, zeroes `consecutive_misses`, and takes `last_seen_at` from
the incoming record; the batch upsert of a singleton behaves identically. -/
theorem upsert_reactivates_preserving_provenance
    (table : Table) (job : Job) (k : Nat) (hk : k < table.length)
    (hid : table[k].id = job.id)
    (_hclosed : table[k].status = Status.CLOSED) :
    ∃ r, (upsert_job table job).1[k]? = some r ∧
      r.created_at = table[k].created_at ∧
      r.first_seen_at = table[k].first_seen_at ∧
      r.status = Status.OPEN ∧
      r.closed_on = none ∧
      r.consecutive_misses = 0 ∧
      r.last_seen_at = job.last_seen_at ∧
      (upsert_jobs_batch table [job]).1 = (upsert_job table job).1 := by
  have hany : (table.any fun r => r.id == job.id) = true := by
    refine List.any_eq_true.mpr ⟨table[k], List.getElem_mem hk, ?_⟩
    simp [hid]
  refine ⟨applyUpsertRow table[k] job, ?_, rfl, rfl, rfl, rfl, rfl, rfl, ?_⟩
  · rw [upsert_job, if_pos hany]
    simp only [List.getElem?_map, List.getElem?_eq_getElem hk, Option.map_some]
    simp [hid, applyUpsertRow]
  · rfl

/-- C4 witness: the reactivation theorem applied to the one-row table holding
`exClosedJob` and the reappearing record `exNewJob`. -/
theorem upsert_reactivates_preserving_provenance_witness :
    0 < exTable.length ∧ exClosedJob.id = exNewJob.id ∧
      exClosedJob.status = Status.CLOSED ∧
      (∃ r, (upsert_job exTable exNewJob).1[0]? = some r ∧
        r.created_at = exClosedJob.created_at ∧
        r.first_seen_at = exClosedJob.first_seen_at ∧
        r.status = Status.OPEN ∧
        r.closed_on = none ∧
        r.consecutive_misses = 0 ∧
        r.last_seen_at = exNewJob.last_seen_at ∧
        (upsert_jobs_batch exTable [exNewJob]).1 = (upsert_job exTable exNewJob).1) :=
  ⟨by decide, rfl, rfl,
    upsert_reactivates_preserving_provenance exTable exNewJob 0 (by decide) rfl rfl⟩

/-- The row rewrite applied by phases 4 and 5 before closing: reset misses for
still-active ids, then bump misses for missing ids. -/
def missPipelineRow (sa mi : Finset String) (ts : String) (x : Job) : Job :=
  if (if x.id ∈ sa then touchRow ts x else x).id ∈ mi then
    bumpRow (if x.id ∈ sa then touchRow ts x else x)
  else
    (if x.id ∈ sa then touchRow ts x else x)

theorem missPipelineRow_id (sa mi : Finset String) (ts : String) (x : Job) :
    (missPipelineRow sa mi ts x).id = x.id := by
  unfold missPipelineRow
  split <;> split <;> rfl

theorem missPipelineRow_of_missing (sa mi : Finset String) (ts : String) (x : Job)
    (hdisj : ∀ a ∈ mi, a ∉ sa) (hx : x.id ∈ mi) :
    missPipelineRow sa mi ts x = bumpRow x := by
  unfold missPipelineRow
  rw [if_neg (hdisj _ hx), if_pos hx]

theorem increment_update_eq_map (table : Table) (sa mi : Finset String) (ts : String) :
    increment_consecutive_misses (update_last_seen table sa ts) mi =
      table.map (missPipelineRow sa mi ts) := by
  unfold increment_consecutive_misses update_last_seen missPipelineRow
  rw [List.map_map]
  rfl

/-- C2: in `update_existing_jobs` with a non-empty missing set, a missing job
with `consecutive_misses = threshold - 1` is closed with `closed_on` set to the
run timestamp; a missing job strictly below the threshold is only bumped and
stays OPEN; and the returned count is the number of missing jobs whose bumped
miss counter reaches the threshold. -/
theorem update_existing_jobs_threshold
    (table : Table) (sa mi : Finset String) (ts : String) (thr : Nat) (j : Job)
    (hnodup : (table.map Job.id).Nodup)
    (hdisj : ∀ x ∈ mi, x ∉ sa)
    (hj : j ∈ table) (hjmi : j.id ∈ mi) (hopen : j.status = Status.OPEN) :
    (j.consecutive_misses = thr - 1 →
      ∃ r, r ∈ (update_existing_jobs table sa mi ts thr).1 ∧ r.id = j.id ∧
        r.status = Status.CLOSED ∧ r.closed_on = some ts) ∧
    (j.consecutive_misses + 1 < thr →
      ∃ r, r ∈ (update_existing_jobs table sa mi ts thr).1 ∧ r.id = j.id ∧
        r.status = Status.OPEN ∧ r.consecutive_misses = j.consecutive_misses + 1 ∧
        r.closed_on = j.closed_on) ∧
    (update_existing_jobs table sa mi ts thr).2 =
      (table.filter fun r => decide (r.id ∈ mi ∧ thr ≤ r.consecutive_misses + 1)).length := by
  have hmi_ne : ¬ mi = ∅ := Finset.ne_empty_of_mem hjmi
  set t2 : Table := increment_consecutive_misses (update_last_seen table sa ts) mi
    with ht2def
  set toClose : List String := get_jobs_exceeding_miss_threshold t2 mi thr with htcdef
  have hueq : update_existing_jobs table sa mi ts thr =
      (if toClose.isEmpty then (t2, 0)
       else (mark_jobs_closed t2 toClose ts, toClose.length)) := by
    unfold update_existing_jobs
    rw [if_neg hmi_ne]
  have ht2map : t2 = table.map (missPipelineRow sa mi ts) := by
    rw [ht2def, increment_update_eq_map]
  have hj2 : bumpRow j ∈ t2 := by
    rw [ht2map, ← missPipelineRow_of_missing sa mi ts j hdisj hjmi]
    exact List.mem_map_of_mem _ hj
  have hcount : toClose.length =
      (table.filter fun r => decide (r.id ∈ mi ∧ thr ≤ r.consecutive_misses + 1)).length := by
    rw [htcdef, ht2map]
    unfold get_jobs_exceeding_miss_threshold
    rw [List.length_map, List.filter_map, List.length_map]
    apply congrArg List.length
    apply List.filter_congr
    intro x hx
    by_cases hxmi : x.id ∈ mi
    · simp only [Function.comp, missPipelineRow_of_missing sa mi ts x hdisj hxmi]
      exact decide_eq_decide.mpr (by exact Iff.rfl)
    · simp only [Function.comp]
      rw [decide_eq_false (fun h => hxmi ((missPipelineRow_id sa mi ts x) ▸ h.1)),
        decide_eq_false (fun h => hxmi h.1)]
  refine ⟨?_, ?_, ?_⟩
  · intro ha
    have hjc : j.id ∈ toClose := by
      rw [htcdef]
      unfold get_jobs_exceeding_miss_threshold
      refine List.mem_map.mpr ⟨bumpRow j, List.mem_filter.mpr ⟨hj2, ?_⟩, rfl⟩
      refine decide_eq_true ⟨hjmi, ?_⟩
      show thr ≤ j.consecutive_misses + 1
      omega
    have htcne : ¬ (toClose.isEmpty = true) := by
      intro habs
      rw [List.isEmpty_iff.mp habs] at hjc
      exact (List.not_mem_nil _) hjc
    refine ⟨closeRow ts (bumpRow j), ?_, rfl, rfl, rfl⟩
    rw [hueq, if_neg htcne]
    show closeRow ts (bumpRow j) ∈ mark_jobs_closed t2 toClose ts
    unfold mark_jobs_closed
    refine List.mem_map.mpr ⟨bumpRow j, hj2, ?_⟩
    exact if_pos (show (bumpRow j).id ∈ toClose from hjc)
  · intro hb
    have hnotc : j.id ∉ toClose := by
      intro habs
      rw [htcdef] at habs
      unfold get_jobs_exceeding_miss_threshold at habs
      obtain ⟨x, hxf, hxid⟩ := List.mem_map.mp habs
      obtain ⟨hxt2, hxp⟩ := List.mem_filter.mp hxf
      rw [ht2map] at hxt2
      obtain ⟨y, hy, hxy⟩ := List.mem_map.mp hxt2
      have hyid : y.id = j.id := by
        rw [← hxid, ← hxy, missPipelineRow_id]
      have hyj : y = j := List.inj_on_of_nodup_map hnodup hy hj hyid
      subst hyj
      rw [missPipelineRow_of_missing sa mi ts y hdisj hjmi] at hxy
      subst hxy
      have hxp2 : (bumpRow y).id ∈ mi ∧ thr ≤ (bumpRow y).consecutive_misses :=
        of_decide_eq_true hxp
      have hle : thr ≤ y.consecutive_misses + 1 := hxp2.2
      omega
    by_cases htce : toClose.isEmpty = true
    · refine ⟨bumpRow j, ?_, rfl, hopen, rfl, rfl⟩
      rw [hueq, if_pos htce]
      exact hj2
    · refine ⟨bumpRow j, ?_, rfl, hopen, rfl, rfl⟩
      rw [hueq, if_neg htce]
      show bumpRow j ∈ mark_jobs_closed t2 toClose ts
      unfold mark_jobs_closed
      refine List.mem_map.mpr ⟨bumpRow j, hj2, ?_⟩
      exact if_neg (show ¬ (bumpRow j).id ∈ toClose from hnotc)
  · rw [hueq]
    by_cases htce : toClose.isEmpty = true
    · rw [if_pos htce]
      have hlen0 : toClose.length = 0 := by rw [List.isEmpty_iff.mp htce]; rfl
      rw [← hcount, hlen0]
    · rw [if_neg htce]
      exact hcount

/-- C2 witness: the threshold theorem applied to a two-row table where `"J2"`
(one prior miss) and `"J3"` (no prior miss) both go missing with the default
threshold 2: `"J2"` closes, `"J3"` is only bumped, and one job is counted. -/
theorem update_existing_jobs_threshold_witness :
    (exOpenJobOneMiss.consecutive_misses = MISSED_RUN_THRESHOLD - 1 ∧
      exOpenJobOneMiss ∈ ([exOpenJobOneMiss, exOpenJobNoMiss] : Table) ∧
      exOpenJobOneMiss.id ∈ ({"J2", "J3"} : Finset String) ∧
      exOpenJobOneMiss.status = Status.OPEN) ∧
    (∃ r, r ∈ (update_existing_jobs [exOpenJobOneMiss, exOpenJobNoMiss] ∅ {"J2", "J3"}
          "2024-04-01" MISSED_RUN_THRESHOLD).1 ∧ r.id = exOpenJobOneMiss.id ∧
        r.status = Status.CLOSED ∧ r.closed_on = some "2024-04-01") ∧
    (update_existing_jobs [exOpenJobOneMiss, exOpenJobNoMiss] ∅ {"J2", "J3"}
        "2024-04-01" MISSED_RUN_THRESHOLD).2 = 1 := by
  have h := update_existing_jobs_threshold [exOpenJobOneMiss, exOpenJobNoMiss] ∅
    {"J2", "J3"} "2024-04-01" MISSED_RUN_THRESHOLD exOpenJobOneMiss
    (by decide) (by decide) (by decide) (by decide) rfl
  refine ⟨⟨rfl, by decide, by decide, rfl⟩, h.1 rfl, ?_⟩
  rw [h.2.2]
  decide

/-- C1 witness: the partition property evaluated at the concrete inputs
`current = {"a", "b"}`, `known = {"c"}`, whose hypotheses (emptiness and
disjointness side conditions) are discharged concretely. -/
theorem calculate_job_diff_partition_witness :
    (({"a", "b"} : Finset String) = ∅ → ({"c"} : Finset String) = ∅ →
      calculate_job_diff {"a", "b"} {"c"} = (∅, ∅, ∅)) ∧
    (Disjoint ({"a", "b"} : Finset String) {"c"} →
      (calculate_job_diff {"a", "b"} {"c"}).1 = {"a", "b"} ∧
        (calculate_job_diff {"a", "b"} {"c"}).2.2 = {"c"}) ∧
    (calculate_job_diff {"a", "b"} {"c"}).1 = {"a", "b"} := by
  have h := calculate_job_diff_partition {"a", "b"} {"c"}
  refine ⟨h.2.2.2.1, h.2.2.2.2, ?_⟩
  exact (h.2.2.2.2 (by decide)).1

/-! ### BatchWriter lemmas -/

theorem flush_buffer_eq_nil (w : BatchWriter) (o : WriteOracle) (table : Table) :
    ((w.flush o table).1).buffer = [] := by
  unfold BatchWriter.flush
  by_cases h : w.buffer.isEmpty = true
  · rw [if_pos h]
    exact List.isEmpty_iff.mp h
  · rw [if_neg h]
    by_cases h2 : o.bulkFails w.buffer = true
    · rw [if_pos h2]
    · rw [if_neg h2]

theorem add_job_buffer_lt (w : BatchWriter) (s : Scraper) (o : WriteOracle)
    (table : Table) (raw : RawJob) (ts : String)
    (hpos : 0 < w.batch_size) (hlt : w.buffer.length < w.batch_size) :
    ((w.add_job s o table raw ts).1).buffer.length < w.batch_size := by
  unfold BatchWriter.add_job
  cases htr : s.transform_to_job_model raw with
  | error e => exact hlt
  | ok j0 =>
    dsimp only
    split
    · rw [flush_buffer_eq_nil]
      simpa using hpos
    · next hfull =>
      simp only [List.length_append, List.length_cons, List.length_nil] at hfull ⊢
      omega

/-- C9: constructing a `BatchWriter` with `batch_size ≤ 0` fails fast; after
any `add_job` the buffer stays strictly below `batch_size` (auto-flush); and
after any `flush` — bulk write or fallback failing or not — the buffer is
empty. -/
theorem batch_writer_buffer_invariants :
    (∀ bs : Int, bs ≤ 0 → ∀ d u : Bool,
      BatchWriter.init bs d u = Except.error "batch_size must be positive") ∧
    (∀ (w : BatchWriter) (s : Scraper) (o : WriteOracle) (table : Table)
        (raw : RawJob) (ts : String),
      0 < w.batch_size → w.buffer.length < w.batch_size →
        ((w.add_job s o table raw ts).1).buffer.length < w.batch_size) ∧
    (∀ (w : BatchWriter) (o : WriteOracle) (table : Table),
      ((w.flush o table).1).buffer = []) := by
  refine ⟨?_, ?_, ?_⟩
  · intro bs hbs d u
    unfold BatchWriter.init
    rw [if_pos hbs]
  · intro w s o table raw ts hpos hlt
    exact add_job_buffer_lt w s o table raw ts hpos hlt
  · intro w o table
    exact flush_buffer_eq_nil w o table

/-- C9 witness: the invariants evaluated at a concrete rejected size `-3`, a
concrete `add_job` on the fresh writer, and a concrete failing flush. -/
theorem batch_writer_buffer_invariants_witness :
    ((-3 : Int) ≤ 0 ∧
      BatchWriter.init (-3) true true = Except.error "batch_size must be positive") ∧
    (0 < exWriter.batch_size ∧ exWriter.buffer.length < exWriter.batch_size ∧
      ((exWriter.add_job exScraper exOkOracle [] { card := exCard, extra := [] }
          "2024-05-01").1).buffer.length < exWriter.batch_size) ∧
    ((exWriterBuf.flush exBulkFailOracle []).1).buffer = [] :=
  ⟨⟨by decide, batch_writer_buffer_invariants.1 (-3) (by decide) true true⟩,
    ⟨by decide, by decide,
      batch_writer_buffer_invariants.2.1 exWriter exScraper exOkOracle []
        { card := exCard, extra := [] } "2024-05-01" (by decide) (by decide)⟩,
    batch_writer_buffer_invariants.2.2 exWriterBuf exBulkFailOracle []⟩

/-- C6: a raising transform in `add_job` is absorbed: only the error counter
changes — the buffer, the remaining statistics and the store are untouched,
and no exception escapes (the function is total). -/
theorem add_job_transform_error_recovery
    (w : BatchWriter) (s : Scraper) (o : WriteOracle) (table : Table)
    (raw : RawJob) (ts : String) (e : String)
    (herr : s.transform_to_job_model raw = Except.error e) :
    w.add_job s o table raw ts
      = ({ w with stats := { w.stats with errors := w.stats.errors + 1 } }, table) ∧
    ((w.add_job s o table raw ts).1).buffer = w.buffer ∧
    ((w.add_job s o table raw ts).1).stats.total_processed = w.stats.total_processed := by
  have h1 : w.add_job s o table raw ts
      = ({ w with stats := { w.stats with errors := w.stats.errors + 1 } }, table) := by
    unfold BatchWriter.add_job
    rw [herr]
  exact ⟨h1, by rw [h1], by rw [h1]⟩

/-- C6 witness: the recovery theorem applied to the always-raising transform
with two rows already buffered. -/
theorem add_job_transform_error_recovery_witness :
    exScraperBadTransform.transform_to_job_model { card := exCard, extra := [] }
        = Except.error "Transform failed" ∧
    (exWriterBuf.add_job exScraperBadTransform exOkOracle []
          { card := exCard, extra := [] } "2024-05-01"
        = ({ exWriterBuf with
              stats := { exWriterBuf.stats with errors := exWriterBuf.stats.errors + 1 } },
            []) ∧
      ((exWriterBuf.add_job exScraperBadTransform exOkOracle []
          { card := exCard, extra := [] } "2024-05-01").1).buffer = exWriterBuf.buffer ∧
      ((exWriterBuf.add_job exScraperBadTransform exOkOracle []
          { card := exCard, extra := [] } "2024-05-01").1).stats.total_processed
        = exWriterBuf.stats.total_processed) :=
  ⟨rfl,
    add_job_transform_error_recovery exWriterBuf exScraperBadTransform exOkOracle []
      { card := exCard, extra := [] } "2024-05-01" "Transform failed" rfl⟩

/-! ### flush fallback accounting -/

theorem fallback_foldl_spec (o : WriteOracle) (u : Bool) (l : List Job)
    (t : Table) (c err : Nat) :
    (l.foldl (fallbackStep o u) (t, c, err)).2.1
        = c + (l.filter fun j => !(o.rowFails j)).length ∧
      (l.foldl (fallbackStep o u) (t, c, err)).2.2
        = err + (l.filter o.rowFails).length := by
  induction l generalizing t c err with
  | nil => simp
  | cons a l ih =>
    by_cases h : o.rowFails a = true
    · have hstep : fallbackStep o u (t, c, err) a = (t, c, err + 1) := by
        unfold fallbackStep
        rw [if_pos h]
      rw [List.foldl_cons, hstep]
      constructor
      · rw [(ih t c (err + 1)).1]
        simp [List.filter_cons, h]
      · rw [(ih t c (err + 1)).2]
        simp [List.filter_cons, h]
        omega
    · have hstep : fallbackStep o u (t, c, err) a = (applyRowWrite u t a, c + 1, err) := by
        unfold fallbackStep
        rw [if_neg h]
      rw [List.foldl_cons, hstep]
      constructor
      · rw [(ih (applyRowWrite u t a) (c + 1) err).1]
        simp [List.filter_cons, h]
        omega
      · rw [(ih (applyRowWrite u t a) (c + 1) err).2]
        simp [List.filter_cons, h]

theorem length_filter_not_add (l : List Job) (p : Job → Bool) :
    (l.filter fun j => !(p j)).length + (l.filter p).length = l.length := by
  induction l with
  | nil => rfl
  | cons a l ih =>
    by_cases h : p a = true <;> simp [List.filter_cons, h] <;> omega

/-- C5 (amended): when the bulk write fails and exactly one buffered row fails
the individual fallback, the fallback writes the other `N - 1` rows, `flush`
returns `N - 1`, and the error counter grows by exactly 2 — one for the failed
bulk write plus one for the failed row. -/
theorem flush_bulk_failure_isolation
    (w : BatchWriter) (o : WriteOracle) (table : Table)
    (hbulk : o.bulkFails w.buffer = true)
    (hone : (w.buffer.filter o.rowFails).length = 1) :
    (w.flush o table).2.2 = w.buffer.length - 1 ∧
    ((w.flush o table).1).stats.errors = w.stats.errors + 2 ∧
    ((w.flush o table).1).stats.total_written
      = w.stats.total_written + (w.buffer.length - 1) := by
  have hne : ¬ (w.buffer.isEmpty = true) := by
    intro habs
    rw [List.isEmpty_iff.mp habs] at hone
    simp at hone
  have hcnt : (w.buffer.filter fun j => !(o.rowFails j)).length = w.buffer.length - 1 := by
    have := length_filter_not_add w.buffer o.rowFails
    omega
  have hfb := fallback_foldl_spec o w.use_upsert w.buffer table 0 0
  have h1 : (w.fallback_individual_writes o table).2.1 = w.buffer.length - 1 := by
    unfold BatchWriter.fallback_individual_writes
    rw [hfb.1, Nat.zero_add, hcnt]
  have h2 : (w.fallback_individual_writes o table).2.2 = 1 := by
    unfold BatchWriter.fallback_individual_writes
    rw [hfb.2, Nat.zero_add, hone]
  unfold BatchWriter.flush
  rw [if_neg hne, if_pos hbulk]
  dsimp only
  rw [h1, h2]
  refine ⟨rfl, by omega, rfl⟩

/-- C5 counterexample: a two-row buffer whose bulk write fails and where
exactly one row (`"J3"`) fails the fallback.  The flush writes `N - 1 = 1`
row, but the writer's error counter reports 2 errors, not 1: the failed bulk
write itself is also counted (as the repository's own unit test
`test_fallback_counts_individual_errors` asserts). -/
theorem flush_single_failure_reports_two_errors :
    (exWriterBuf.flush exBulkFailOracle []).2.2 = 1 ∧
    ((exWriterBuf.flush exBulkFailOracle []).1).stats.errors = 2 ∧
    ((exWriterBuf.flush exBulkFailOracle []).1).stats.errors ≠ 1 := by
  refine ⟨by decide, by decide, by decide⟩

/-- C5 (amended) witness: the isolation theorem applied to the concrete
two-row buffer and failing driver. -/
theorem flush_bulk_failure_isolation_witness :
    exBulkFailOracle.bulkFails exWriterBuf.buffer = true ∧
    (exWriterBuf.buffer.filter exBulkFailOracle.rowFails).length = 1 ∧
    ((exWriterBuf.flush exBulkFailOracle []).2.2 = exWriterBuf.buffer.length - 1 ∧
      ((exWriterBuf.flush exBulkFailOracle []).1).stats.errors
        = exWriterBuf.stats.errors + 2 ∧
      ((exWriterBuf.flush exBulkFailOracle []).1).stats.total_written
        = exWriterBuf.stats.total_written + (exWriterBuf.buffer.length - 1)) :=
  ⟨rfl, by decide,
    flush_bulk_failure_isolation exWriterBuf exBulkFailOracle [] rfl (by decide)⟩

/-! ### writer-state preservation and counting lemmas -/

theorem flush_use_upsert (w : BatchWriter) (o : WriteOracle) (table : Table) :
    ((w.flush o table).1).use_upsert = w.use_upsert := by
  unfold BatchWriter.flush
  by_cases h : w.buffer.isEmpty = true
  · rw [if_pos h]
  · rw [if_neg h]
    by_cases h2 : o.bulkFails w.buffer = true
    · rw [if_pos h2]
    · rw [if_neg h2]

theorem add_job_use_upsert (w : BatchWriter) (s : Scraper) (o : WriteOracle)
    (table : Table) (raw : RawJob) (ts : String) :
    ((w.add_job s o table raw ts).1).use_upsert = w.use_upsert := by
  unfold BatchWriter.add_job
  cases htr : s.transform_to_job_model raw with
  | error e => rfl
  | ok j0 =>
    dsimp only
    split
    · rw [flush_use_upsert]
    · rfl

theorem foldl_procStep_use_upsert (s : Scraper) (o : WriteOracle) (ts : String)
    (l : List RawJob) : ∀ st : BatchWriter × Table × Nat,
    ((l.foldl (procStep s o ts) st).1).use_upsert = st.1.use_upsert := by
  induction l with
  | nil => intro st; rfl
  | cons a l ih =>
    intro st
    rw [List.foldl_cons, ih]
    exact add_job_use_upsert st.1 s o st.2.1 a ts

theorem foldl_procStepCards_use_upsert (s : Scraper) (o : WriteOracle) (ts : String)
    (l : List Card) : ∀ st : BatchWriter × Table,
    ((l.foldl (procStepCards s o ts) st).1).use_upsert = st.1.use_upsert := by
  induction l with
  | nil => intro st; rfl
  | cons a l ih =>
    intro st
    rw [List.foldl_cons, ih]
    exact add_job_use_upsert st.1 s o st.2 { card := a, extra := [] } ts

theorem foldl_procStep_count (s : Scraper) (o : WriteOracle) (ts : String)
    (l : List RawJob) : ∀ st : BatchWriter × Table × Nat,
    (l.foldl (procStep s o ts) st).2.2 = st.2.2 + l.length := by
  induction l with
  | nil => intro st; simp
  | cons a l ih =>
    intro st
    rw [List.foldl_cons, ih]
    show st.2.2 + 1 + l.length = st.2.2 + (a :: l).length
    simp only [List.length_cons]
    omega

theorem init_ok_fields (bs : Int) (d u : Bool) (w : BatchWriter)
    (h : BatchWriter.init bs d u = Except.ok w) :
    w.use_upsert = u ∧ w.buffer = [] ∧ w.detail_scrape = d := by
  unfold BatchWriter.init at h
  by_cases hbs : bs ≤ 0
  · rw [if_pos hbs] at h
    exact Except.noConfusion h
  · rw [if_neg hbs] at h
    injection h with h
    subst h
    exact ⟨rfl, rfl, rfl⟩

theorem streaming_ok_eq_map (s : Scraper) (cards : List Card) (stream : List RawJob)
    (h : scrape_job_details_streaming s cards = Except.ok stream) :
    stream = cards.map (enrichCard s) := by
  unfold scrape_job_details_streaming at h
  cases hpage : s.new_page with
  | error e => rw [hpage] at h; exact Except.noConfusion h
  | ok u => rw [hpage] at h; exact (Except.ok.inj h).symm

theorem process_count (s : Scraper) (o : WriteOracle) (table : Table)
    (cards : List Card) (ts : String) (bs : Int) (n : Nat) (t : Table)
    (wopt : Option BatchWriter)
    (h : process_new_jobs s o table cards ts true bs = Except.ok (n, t, wopt)) :
    n = cards.length := by
  unfold process_new_jobs at h
  by_cases hemp : cards.isEmpty = true
  · rw [if_pos hemp] at h
    simp only [Except.ok.injEq, Prod.mk.injEq] at h
    rw [← h.1, List.isEmpty_iff.mp hemp]
    rfl
  · rw [if_neg hemp] at h
    cases hinit : BatchWriter.init bs true true with
    | error e =>
      rw [hinit] at h
      exact Except.noConfusion h
    | ok w0 =>
      rw [hinit] at h
      dsimp only at h
      rw [if_pos rfl] at h
      cases hstr : scrape_job_details_streaming s cards with
      | error e =>
        rw [hstr] at h
        exact Except.noConfusion h
      | ok stream =>
        rw [hstr] at h
        dsimp only at h
        simp only [Except.ok.injEq, Prod.mk.injEq] at h
        have hlen : stream.length = cards.length := by
          rw [streaming_ok_eq_map s cards stream hstr, List.length_map]
        rw [← h.1, foldl_procStep_count]
        simpa using hlen

theorem process_writer_upsert (s : Scraper) (o : WriteOracle) (table : Table)
    (cards : List Card) (ts : String) (d : Bool) (bs : Int)
    (n : Nat) (t : Table) (w : BatchWriter)
    (h : process_new_jobs s o table cards ts d bs = Except.ok (n, t, some w)) :
    w.use_upsert = true := by
  unfold process_new_jobs at h
  by_cases hemp : cards.isEmpty = true
  · rw [if_pos hemp] at h
    simp at h
  · rw [if_neg hemp] at h
    cases hinit : BatchWriter.init bs d true with
    | error e =>
      rw [hinit] at h
      exact Except.noConfusion h
    | ok w0 =>
      rw [hinit] at h
      have hup0 : w0.use_upsert = true := (init_ok_fields bs d true w0 hinit).1
      dsimp only at h
      by_cases hd : d = true
      · rw [if_pos hd] at h
        cases hstr : scrape_job_details_streaming s cards with
        | error e =>
          rw [hstr] at h
          exact Except.noConfusion h
        | ok stream =>
          rw [hstr] at h
          dsimp only at h
          simp only [Except.ok.injEq, Prod.mk.injEq, Option.some.injEq] at h
          rw [← h.2.2, flush_use_upsert, foldl_procStep_use_upsert]
          exact hup0
      · rw [if_neg hd] at h
        simp only [Except.ok.injEq, Prod.mk.injEq, Option.some.injEq] at h
        rw [← h.2.2, flush_use_upsert, foldl_procStepCards_use_upsert]
        exact hup0

/-- C10: with detail scraping enabled, `details_fetched` counts every streamed
card — also those with no URL and those whose detail extraction raised — both
at the `process_new_jobs` level and in the run result. -/
theorem details_fetched_counts_every_streamed_card (s : Scraper) (o : WriteOracle) :
    (∀ (table : Table) (cards : List Card) (ts : String) (bs : Int)
        (n : Nat) (t : Table) (wopt : Option BatchWriter),
      process_new_jobs s o table cards ts true bs = Except.ok (n, t, wopt) →
        n = cards.length) ∧
    (∀ (db : DB) (company rid t1 t2 : String) (res : ScrapeResult),
      (run_incremental_scrape s o db company true rid t1 t2).result = Except.ok res →
        res.details_fetched
          = (run_incremental_scrape s o db company true rid t1 t2).processed_cards.length) := by
  refine ⟨fun table cards ts bs n t wopt h =>
    process_count s o table cards ts bs n t wopt h, ?_⟩
  intro db company rid t1 t2 res hres
  unfold run_incremental_scrape at hres ⊢
  cases hsnap : s.scrape_all_queries with
  | error e =>
    rw [hsnap] at hres
    dsimp only at hres
    exact Except.noConfusion hres
  | ok cards =>
    rw [hsnap] at hres
    dsimp only at hres ⊢
    cases hpr : process_new_jobs s o db.jobs (phase3_cards db company cards) t1 true 50 with
    | error e =>
      rw [hpr] at hres
      dsimp only at hres
      exact Except.noConfusion hres
    | ok pr =>
      rw [hpr] at hres
      dsimp only at hres ⊢
      rw [← Except.ok.inj hres]
      exact process_count s o db.jobs (phase3_cards db company cards) t1 50
        pr.1 pr.2.1 pr.2.2 (by rw [hpr])

/-- C10 witness: the fixture run streams two cards — one whose detail fetch
raises and one with no URL — and still reports `details_fetched = 2`. -/
theorem details_fetched_counts_every_streamed_card_witness :
    process_new_jobs exScraperDetailFail exOkOracle [] [exCard, exCardNoUrl]
        "2024-05-01" true 50
      = Except.ok (2, [exStampedC1, exStampedC2], some exFinalWriter50) ∧
    (2 : Nat) = ([exCard, exCardNoUrl] : List Card).length := by
  have hp : process_new_jobs exScraperDetailFail exOkOracle [] [exCard, exCardNoUrl]
      "2024-05-01" true 50
      = Except.ok (2, [exStampedC1, exStampedC2], some exFinalWriter50) := by decide
  exact ⟨hp,
    (details_fetched_counts_every_streamed_card exScraperDetailFail exOkOracle).1
      [] [exCard, exCardNoUrl] "2024-05-01" 50 2 [exStampedC1, exStampedC2]
      (some exFinalWriter50) hp⟩

/-- C3: every invocation of `run_incremental_scrape` appends exactly one
`ScrapeRun` record; when any phase raised, the record still carries the
counters accumulated so far (`jobs_seen` whenever the snapshot succeeded) with
`error_count ≥ 1`, and the error is returned only together with the updated
audit trail. -/
theorem run_always_records_audit
    (s : Scraper) (o : WriteOracle) (db : DB) (company : String) (detail : Bool)
    (rid t1 t2 : String) :
    ∃ rec : ScrapeRun,
      (run_incremental_scrape s o db company detail rid t1 t2).db.runs
        = db.runs ++ [rec] ∧
      rec.run_id = rid ∧ rec.company = company ∧ rec.mode = "incremental" ∧
      (∀ e, (run_incremental_scrape s o db company detail rid t1 t2).result
          = Except.error e → 1 ≤ rec.error_count) ∧
      (∀ cards, s.scrape_all_queries = Except.ok cards →
        rec.jobs_seen = cards.length) := by
  cases hsnap : s.scrape_all_queries with
  | error e =>
    refine ⟨mkRunRecord company t1 t2 { error_count := 1, run_id := rid },
      ?_, rfl, rfl, rfl, ?_, ?_⟩
    · unfold run_incremental_scrape
      rw [hsnap]
      rfl
    · intro e2 _
      exact Nat.le_refl 1
    · intro cards hc
      exact Except.noConfusion hc
  | ok cards =>
    cases hpr : process_new_jobs s o db.jobs (phase3_cards db company cards) t1 detail 50 with
    | error e =>
      refine ⟨mkRunRecord company t1 t2
        { jobs_seen := cards.length, error_count := 1, run_id := rid },
        ?_, rfl, rfl, rfl, ?_, ?_⟩
      · unfold run_incremental_scrape
        rw [hsnap]
        dsimp only
        rw [hpr]
        rfl
      · intro e2 _
        exact Nat.le_refl 1
      · intro cards2 hc
        rw [← Except.ok.inj hc]
        rfl
    | ok pr =>
      refine ⟨mkRunRecord company t1 t2
        { jobs_seen := cards.length,
          new_jobs := (snapshot_diff db company cards).1.card,
          closed_jobs := (update_existing_jobs pr.2.1 (snapshot_diff db company cards).2.1
            (snapshot_diff db company cards).2.2 t1 MISSED_RUN_THRESHOLD).2,
          details_fetched := pr.1, error_count := 0, run_id := rid },
        ?_, rfl, rfl, rfl, ?_, ?_⟩
      · unfold run_incremental_scrape
        rw [hsnap]
        dsimp only
        rw [hpr]
        rfl
      · intro e2 he
        unfold run_incremental_scrape at he
        rw [hsnap] at he
        dsimp only at he
        rw [hpr] at he
        dsimp only at he
        exact Except.noConfusion he
      · intro cards2 hc
        rw [← Except.ok.inj hc]
        rfl

/-- C3 witness: a snapshot-phase failure against an empty store still appends
exactly one audit record, with `error_count ≥ 1`, and the error is re-raised. -/
theorem run_always_records_audit_witness :
    (run_incremental_scrape exScraperSnapshotFail exOkOracle { jobs := [], runs := [] }
        "apple" true "run1" "t1" "t2").result = Except.error "page structure changed" ∧
    ∃ rec : ScrapeRun,
      (run_incremental_scrape exScraperSnapshotFail exOkOracle { jobs := [], runs := [] }
          "apple" true "run1" "t1" "t2").db.runs = [] ++ [rec] ∧
      1 ≤ rec.error_count := by
  refine ⟨rfl, ?_⟩
  obtain ⟨rec, h1, _, _, _, h5, _⟩ := run_always_records_audit exScraperSnapshotFail
    exOkOracle { jobs := [], runs := [] } "apple" true "run1" "t1" "t2"
  exact ⟨rec, h1, h5 "page structure changed" rfl⟩

/-- C8: detail fetching is driven exactly by the diff's `new` set — a card is
handed to phase 3 iff it came from the snapshot and its id is in `new` — the
records are streamed through a writer with `use_upsert = true`, and the run
result's `new_jobs` equals the cardinality of `new`. -/
theorem enrichment_scoped_to_new_ids
    (s : Scraper) (o : WriteOracle) (db : DB) (company : String) (detail : Bool)
    (rid t1 t2 : String) (cards : List Card) (res : ScrapeResult)
    (hsnap : s.scrape_all_queries = Except.ok cards)
    (hok : (run_incremental_scrape s o db company detail rid t1 t2).result
      = Except.ok res) :
    (∀ c, c ∈ (run_incremental_scrape s o db company detail rid t1 t2).processed_cards ↔
      (c ∈ cards ∧ c.id ∈ (snapshot_diff db company cards).1)) ∧
    res.new_jobs = (snapshot_diff db company cards).1.card ∧
    (∀ w, (run_incremental_scrape s o db company detail rid t1 t2).writer = some w →
      w.use_upsert = true) := by
  unfold run_incremental_scrape at hok ⊢
  rw [hsnap] at hok ⊢
  dsimp only at hok ⊢
  cases hpr : process_new_jobs s o db.jobs (phase3_cards db company cards) t1 detail 50 with
  | error e =>
    rw [hpr] at hok
    dsimp only at hok
    exact Except.noConfusion hok
  | ok pr =>
    rw [hpr] at hok
    dsimp only at hok ⊢
    refine ⟨?_, ?_, ?_⟩
    · intro c
      unfold phase3_cards new_job_cards_of
      simp only [List.mem_filter, decide_eq_true_eq]
    · rw [← Except.ok.inj hok]
    · intro w hw
      refine process_writer_upsert s o db.jobs (phase3_cards db company cards) t1 detail 50
        pr.1 pr.2.1 w ?_
      rw [hpr, ← hw]

/-- C8 witness: against a store where `"C1"` is already open, the fixture run
hands only the `"C2"` card to enrichment and reports `new_jobs = 1`. -/
theorem enrichment_scoped_to_new_ids_witness :
    exScraper.scrape_all_queries = Except.ok [exCard, exCardNoUrl] ∧
    (run_incremental_scrape exScraper exOkOracle exDB "apple" true "run1" "t1" "t2").result
      = Except.ok exRes8 ∧
    (∀ c, c ∈ (run_incremental_scrape exScraper exOkOracle exDB "apple" true
        "run1" "t1" "t2").processed_cards ↔
      (c ∈ ([exCard, exCardNoUrl] : List Card) ∧
        c.id ∈ (snapshot_diff exDB "apple" [exCard, exCardNoUrl]).1)) ∧
    exRes8.new_jobs = (snapshot_diff exDB "apple" [exCard, exCardNoUrl]).1.card := by
  have h1 : (run_incremental_scrape exScraper exOkOracle exDB "apple" true
      "run1" "t1" "t2").result = Except.ok exRes8 := by decide
  have h := enrichment_scoped_to_new_ids exScraper exOkOracle exDB "apple" true
    "run1" "t1" "t2" [exCard, exCardNoUrl] exRes8 rfl h1
  exact ⟨rfl, h1, h.1, h.2.1⟩

/-! ### persistence of streamed records through the upsert path -/

theorem upsert_row_if_id (j r : Job) :
    (if r.id == j.id then applyUpsertRow r j else r).id = r.id := by
  split <;> rfl

theorem upsert_job_preserves_id (t : Table) (j : Job) (idv : String)
    (h : ∃ r, r ∈ t ∧ r.id = idv) : ∃ r, r ∈ (upsert_job t j).1 ∧ r.id = idv := by
  obtain ⟨r, hr, hid⟩ := h
  unfold upsert_job
  by_cases hany : (t.any fun x => x.id == j.id) = true
  · rw [if_pos hany]
    refine ⟨if r.id == j.id then applyUpsertRow r j else r, List.mem_map_of_mem _ hr, ?_⟩
    rw [upsert_row_if_id]
    exact hid
  · rw [if_neg hany]
    exact ⟨r, List.mem_append_left _ hr, hid⟩

theorem upsert_job_adds_id (t : Table) (j : Job) :
    ∃ r, r ∈ (upsert_job t j).1 ∧ r.id = j.id := by
  unfold upsert_job
  by_cases hany : (t.any fun x => x.id == j.id) = true
  · rw [if_pos hany]
    obtain ⟨x, hx, hbeq⟩ := List.any_eq_true.mp hany
    have hxid : x.id = j.id := by simpa using hbeq
    refine ⟨if x.id == j.id then applyUpsertRow x j else x, List.mem_map_of_mem _ hx, ?_⟩
    rw [if_pos (by simpa using hxid)]
    exact hxid
  · rw [if_neg hany]
    exact ⟨j, List.mem_append_right _ (List.mem_singleton_self j), rfl⟩

theorem upsert_fold_preserves_id (l : List Job) :
    ∀ (t : Table) (idv : String), (∃ r, r ∈ t ∧ r.id = idv) →
      ∃ r, r ∈ l.foldl (fun t j => (upsert_job t j).1) t ∧ r.id = idv := by
  induction l with
  | nil => intro t idv h; exact h
  | cons a l ih =>
    intro t idv h
    rw [List.foldl_cons]
    exact ih _ idv (upsert_job_preserves_id t a idv h)

theorem upsert_fold_adds_id (l : List Job) :
    ∀ (t : Table) (j : Job), j ∈ l →
      ∃ r, r ∈ l.foldl (fun t j => (upsert_job t j).1) t ∧ r.id = j.id := by
  induction l with
  | nil => intro t j h; exact absurd h (List.not_mem_nil j)
  | cons a l ih =>
    intro t j h
    rw [List.foldl_cons]
    rcases List.mem_cons.mp h with heq | hmem
    · subst heq
      exact upsert_fold_preserves_id l _ j.id (upsert_job_adds_id t j)
    · exact ih _ j hmem

theorem flush_persists_id (w : BatchWriter) (o : WriteOracle) (t : Table) (idv : String)
    (hup : w.use_upsert = true) (hbulk : o.bulkFails w.buffer = false)
    (htr : trackedId w t idv) :
    ∃ r, r ∈ (w.flush o t).2.1 ∧ r.id = idv := by
  unfold BatchWriter.flush
  by_cases he : w.buffer.isEmpty = true
  · rw [if_pos he]
    cases htr with
    | inl h =>
      obtain ⟨j, hj, _⟩ := h
      rw [List.isEmpty_iff.mp he] at hj
      exact absurd hj (List.not_mem_nil j)
    | inr h => exact h
  · rw [if_neg he, if_neg (by simp [hbulk])]
    dsimp only
    rw [hup]
    unfold applyBatchWrite
    rw [if_pos rfl]
    unfold upsert_jobs_batch
    dsimp only
    cases htr with
    | inl h =>
      obtain ⟨j, hj, hid⟩ := h
      rw [← hid]
      exact upsert_fold_adds_id w.buffer t j hj
    | inr h => exact upsert_fold_preserves_id w.buffer t idv h

theorem add_job_tracked (w : BatchWriter) (s : Scraper) (o : WriteOracle) (t : Table)
    (raw : RawJob) (ts : String) (idv : String)
    (hup : w.use_upsert = true) (hbulk : ∀ l, o.bulkFails l = false)
    (htr : trackedId w t idv) :
    trackedId (w.add_job s o t raw ts).1 (w.add_job s o t raw ts).2 idv := by
  unfold BatchWriter.add_job
  cases htrm : s.transform_to_job_model raw with
  | error e => exact htr
  | ok j0 =>
    dsimp only
    have htr1 : trackedId
        { w with
          buffer := w.buffer ++
            [{ j0 with
                first_seen_at := ts
                last_seen_at := ts
                details_scraped := w.detail_scrape }]
          stats := { w.stats with total_processed := w.stats.total_processed + 1 } }
        t idv := by
      cases htr with
      | inl h =>
        obtain ⟨j, hj, hid⟩ := h
        exact Or.inl ⟨j, List.mem_append_left _ hj, hid⟩
      | inr h => exact Or.inr h
    split
    · exact Or.inr (flush_persists_id _ o t idv hup (hbulk _) htr1)
    · exact htr1

theorem add_job_establishes (w : BatchWriter) (s : Scraper) (o : WriteOracle) (t : Table)
    (raw : RawJob) (ts : String) (j0 : Job)
    (hup : w.use_upsert = true) (hbulk : ∀ l, o.bulkFails l = false)
    (htrm : s.transform_to_job_model raw = Except.ok j0) :
    trackedId (w.add_job s o t raw ts).1 (w.add_job s o t raw ts).2 j0.id := by
  unfold BatchWriter.add_job
  rw [htrm]
  dsimp only
  have htr1 : trackedId
      { w with
        buffer := w.buffer ++
          [{ j0 with
              first_seen_at := ts
              last_seen_at := ts
              details_scraped := w.detail_scrape }]
        stats := { w.stats with total_processed := w.stats.total_processed + 1 } }
      t j0.id :=
    Or.inl ⟨_, List.mem_append_right _ (List.mem_singleton_self _), rfl⟩
  split
  · exact Or.inr (flush_persists_id _ o t j0.id hup (hbulk _) htr1)
  · exact htr1

theorem foldl_procStep_tracked (s : Scraper) (o : WriteOracle) (ts : String) (idv : String)
    (hbulk : ∀ l, o.bulkFails l = false) (l : List RawJob) :
    ∀ st : BatchWriter × Table × Nat, st.1.use_upsert = true →
      trackedId st.1 st.2.1 idv →
      trackedId (l.foldl (procStep s o ts) st).1 (l.foldl (procStep s o ts) st).2.1 idv := by
  induction l with
  | nil => intro st _ htr; exact htr
  | cons a l ih =>
    intro st hup htr
    rw [List.foldl_cons]
    refine ih _ ?_ ?_
    · show ((st.1.add_job s o st.2.1 a ts).1).use_upsert = true
      rw [add_job_use_upsert]
      exact hup
    · exact add_job_tracked st.1 s o st.2.1 a ts idv hup hbulk htr

/-- C7 (amended): a new job whose detail fetch raises is still streamed as its
bare summary record and — when the transform accepts it and the store's writes
do not fail — a row with its id is persisted, and every other card of the
queue is still streamed (one record per card).  No failure marker is recorded
on the persisted row. -/
theorem detail_failure_record_still_persisted
    (s : Scraper) (o : WriteOracle) (table : Table) (cards : List Card)
    (ts : String) (bs : Int) (c : Card) (url e : String) (jc : Job)
    (hc : c ∈ cards) (hurl : c.job_url = some url)
    (hfail : s.extract_job_details url = Except.error e)
    (htrm : s.transform_to_job_model { card := c, extra := [] } = Except.ok jc)
    (hbulk : ∀ l, o.bulkFails l = false) :
    (∀ stream, scrape_job_details_streaming s cards = Except.ok stream →
      ({ card := c, extra := [] } : RawJob) ∈ stream ∧ stream.length = cards.length) ∧
    (∀ n t wopt, process_new_jobs s o table cards ts true bs = Except.ok (n, t, wopt) →
      ∃ r, r ∈ t ∧ r.id = jc.id) := by
  have henrich : enrichCard s c = { card := c, extra := [] } := by
    unfold enrichCard
    rw [hurl]
    dsimp only
    rw [hfail]
  constructor
  · intro stream hs
    have hmap := streaming_ok_eq_map s cards stream hs
    constructor
    · rw [hmap, ← henrich]
      exact List.mem_map_of_mem _ hc
    · rw [hmap, List.length_map]
  · intro n t wopt h
    unfold process_new_jobs at h
    by_cases hemp : cards.isEmpty = true
    · rw [List.isEmpty_iff.mp hemp] at hc
      exact absurd hc (List.not_mem_nil c)
    · rw [if_neg hemp] at h
      cases hinit : BatchWriter.init bs true true with
      | error e2 =>
        rw [hinit] at h
        exact Except.noConfusion h
      | ok w0 =>
        rw [hinit] at h
        dsimp only at h
        rw [if_pos rfl] at h
        cases hstr : scrape_job_details_streaming s cards with
        | error e2 =>
          rw [hstr] at h
          exact Except.noConfusion h
        | ok stream =>
          rw [hstr] at h
          dsimp only at h
          simp only [Except.ok.injEq, Prod.mk.injEq] at h
          rw [← h.2.1]
          have hmem : ({ card := c, extra := [] } : RawJob) ∈ stream := by
            rw [streaming_ok_eq_map s cards stream hstr, ← henrich]
            exact List.mem_map_of_mem _ hc
          obtain ⟨l1, l2, hsplit⟩ := List.append_of_mem hmem
          subst hsplit
          rw [List.foldl_append, List.foldl_cons]
          have hup0 : w0.use_upsert = true := (init_ok_fields bs true true w0 hinit).1
          have hup1 : ((l1.foldl (procStep s o ts) (w0, table, 0)).1).use_upsert = true := by
            rw [foldl_procStep_use_upsert]
            exact hup0
          have htr2 := add_job_establishes (l1.foldl (procStep s o ts) (w0, table, 0)).1
            s o (l1.foldl (procStep s o ts) (w0, table, 0)).2.1
            { card := c, extra := [] } ts jc hup1 hbulk htrm
          have hup2 : ((procStep s o ts (l1.foldl (procStep s o ts) (w0, table, 0))
              { card := c, extra := [] }).1).use_upsert = true := by
            show (((l1.foldl (procStep s o ts) (w0, table, 0)).1.add_job s o
              (l1.foldl (procStep s o ts) (w0, table, 0)).2.1
              { card := c, extra := [] } ts).1).use_upsert = true
            rw [add_job_use_upsert]
            exact hup1
          have htr3 := foldl_procStep_tracked s o ts jc.id hbulk l2
            (procStep s o ts (l1.foldl (procStep s o ts) (w0, table, 0))
              { card := c, extra := [] }) hup2 htr2
          have hup3 : ((l2.foldl (procStep s o ts)
              (procStep s o ts (l1.foldl (procStep s o ts) (w0, table, 0))
                { card := c, extra := [] })).1).use_upsert = true := by
            rw [foldl_procStep_use_upsert]
            exact hup2
          exact flush_persists_id _ o _ jc.id hup3 (hbulk _) htr3

/-- C7 counterexample: `"persisted with a failure marker"` fails on the code —
the pipeline's entire output for a card whose detail fetch raised is
indistinguishable from that for a card whose fetch succeeded with no extra
fields, and the persisted row even carries `details_scraped = true`. -/
theorem detail_failure_no_marker_counterexample :
    exScraperDetailFail.extract_job_details "https://jobs/C1"
      = Except.error "network down" ∧
    exScraperEmptyDetails.extract_job_details "https://jobs/C1" = Except.ok [] ∧
    process_new_jobs exScraperDetailFail exOkOracle [] [exCard] "2024-05-01" true 50
      = process_new_jobs exScraperEmptyDetails exOkOracle [] [exCard] "2024-05-01" true 50 ∧
    process_new_jobs exScraperDetailFail exOkOracle [] [exCard] "2024-05-01" true 50
      = Except.ok (1, [exStampedC1], some exFinalWriter50One) ∧
    exStampedC1.details_scraped = true := by
  exact ⟨rfl, rfl, by decide, by decide, rfl⟩

/-- C7 (amended) witness: the persistence theorem applied to the fixture queue
whose first card's detail fetch raises. -/
theorem detail_failure_record_still_persisted_witness :
    (exCard ∈ ([exCard, exCardNoUrl] : List Card) ∧
      exCard.job_url = some "https://jobs/C1" ∧
      exScraperDetailFail.extract_job_details "https://jobs/C1"
        = Except.error "network down" ∧
      exScraperDetailFail.transform_to_job_model { card := exCard, extra := [] }
        = Except.ok exBareC1) ∧
    (({ card := exCard, extra := [] } : RawJob)
        ∈ [({ card := exCard, extra := [] } : RawJob),
           { card := exCardNoUrl, extra := [] }] ∧
      ([({ card := exCard, extra := [] } : RawJob),
        { card := exCardNoUrl, extra := [] }]).length
        = ([exCard, exCardNoUrl] : List Card).length) ∧
    (∃ r, r ∈ ([exStampedC1, exStampedC2] : Table) ∧ r.id = exBareC1.id) := by
  have h := detail_failure_record_still_persisted exScraperDetailFail exOkOracle []
    [exCard, exCardNoUrl] "2024-05-01" 50 exCard "https://jobs/C1" "network down"
    exBareC1 (by decide) rfl rfl rfl (fun l => rfl)
  exact ⟨⟨by decide, rfl, rfl, rfl⟩, h.1 _ (by decide),
    h.2 2 [exStampedC1, exStampedC2] (some exFinalWriter50) (by decide)⟩

end JobVisualizer
